import Mathlib

/-!
Verification development for the file-organizer engine (`file_organizer.py`).

The program state is modelled shallowly: a filesystem is a finite association
list of files (path to content, modification time and size), a list of
existing directories, and the undo journal file (`undo.log`), which either
does not exist (`none`) or holds a list of records.

Paths are modelled as lists of components, already resolved (absolute and
normalised), as `Path.resolve()` produces for the journal.  Journal lines
`ACTION|src|dst` are modelled in parsed form: `log_undo_operation` only ever
writes three pipe-separated fields, so a line is a record of an action string
and two paths.  Directory-typed journal destinations and symlinks are not
modelled; `shutil.move` and `shutil.copy2` are modelled for regular files
(metadata-preserving, overwriting an existing destination file, moving into
a destination that is a directory, failing when the source is missing or the
target's parent directory does not exist).
-/

deriving instance DecidableEq for Except

namespace FileOrganizer

/-- A filesystem path, as a list of already-resolved components. -/
abbrev Path := List String

/-- `str.lower()` (ASCII). -/
def lower (s : String) : String := String.mk (s.data.map Char.toLower)

/-- `str.upper()` (ASCII). -/
def upper (s : String) : String := String.mk (s.data.map Char.toUpper)

/-- `PurePath.suffix`: the extension of the final component, computed as
pathlib does from the last dot, which must be strictly inside the name
(`"a.b"` gives `".b"`, `".hidden"` and `"a."` give `""`). -/
def nameSuffix (name : String) : String :=
  let cs := name.data
  match cs.reverse.findIdx? (· == '.') with
  | none => ""
  | some j =>
    let i := cs.length - 1 - j
    if 0 < i ∧ i < cs.length - 1 then String.mk (cs.drop i) else ""

/-- `PurePath.stem`: the final component without its suffix. -/
def nameStem (name : String) : String :=
  let cs := name.data
  match cs.reverse.findIdx? (· == '.') with
  | none => name
  | some j =>
    let i := cs.length - 1 - j
    if 0 < i ∧ i < cs.length - 1 then String.mk (cs.take i) else name

/-- `Path.name`: the final component. -/
def pathName (p : Path) : String := p.getLastD ""

/-- `Path.parent` of the modelled path. -/
def pathParent (p : Path) : Path := p.dropLast

/-- `Path.suffix` of the modelled path. -/
def pathSuffix (p : Path) : String := nameSuffix (pathName p)

/-- `Path.stem` of the modelled path. -/
def pathStem (p : Path) : String := nameStem (pathName p)

/-- Content, modification time and size of a file (`stat` metadata is
abstracted to the two numbers the organizers read). -/
structure FileData where
  content : Nat
  mtime : Nat
  size : Nat
deriving DecidableEq

/-- One parsed line of the undo journal: `ACTION|src|dst`. -/
structure UndoEntry where
  action : String
  src : Path
  dst : Path
deriving DecidableEq

/-- The filesystem state, together with the `undo.log` journal file
(`none` means the file does not exist). -/
structure FS where
  files : List (Path × FileData)
  dirs : List Path
  journal : Option (List UndoEntry)
deriving DecidableEq

/-- The file stored at `p`, if any. -/
def getFile (fs : FS) (p : Path) : Option FileData :=
  fs.files.lookup p

/-- `p` exists and is a regular file. -/
def isFile (fs : FS) (p : Path) : Bool :=
  (getFile fs p).isSome

/-- `p` exists and is a directory. -/
def isDir (fs : FS) (p : Path) : Bool :=
  decide (p ∈ fs.dirs)

/-- `Path.exists()`. -/
def existsPath (fs : FS) (p : Path) : Bool :=
  isFile fs p || isDir fs p

/-- Remove the file at `p` (`unlink`). -/
def removeFile (fs : FS) (p : Path) : FS :=
  { fs with files := fs.files.filter fun e => !(e.1 == p) }

/-- Create or replace the file at `p`. -/
def setFile (fs : FS) (p : Path) (d : FileData) : FS :=
  { fs with files := (p, d) :: fs.files.filter fun e => !(e.1 == p) }

/-- All nonempty prefixes of a path: the chain of directories that
`mkdir(parents=True)` ensures. -/
def prefixesOf : Path → List Path
  | [] => []
  | x :: xs => [x] :: (prefixesOf xs).map (x :: ·)

/-- `p.mkdir(parents=True, exist_ok=True)`: make `p` and all its ancestors
exist as directories. -/
def mkdirParents (fs : FS) (p : Path) : FS :=
  { fs with dirs := fs.dirs ++ prefixesOf p }

/-- The parent directory of `p` exists (the empty parent is the root of the
modelled namespace and always exists). -/
def parentExists (fs : FS) (p : Path) : Bool :=
  pathParent p = [] || isDir fs (pathParent p)

/-- Where `shutil.move`/`copy2` actually puts the file: into `dst` itself,
or under it when `dst` is an existing directory. -/
def targetOf (fs : FS) (src dst : Path) : Path :=
  if isDir fs dst then dst ++ [pathName src] else dst

/-- `shutil.move(src, dst)` on the model: fails (`none`, an exception in the
code) when the source file is missing, the real target's parent directory
does not exist, or the real target is itself a directory. -/
def tryMove (fs : FS) (src dst : Path) : Option FS :=
  match getFile fs src with
  | none => none
  | some d =>
    let real := targetOf fs src dst
    if parentExists fs real && !(isDir fs real) then
      some (setFile (removeFile fs src) real d)
    else
      none

/-- `shutil.copy2(src, dst)` on the model: like `tryMove` but the source is
kept; metadata (mtime, size) is preserved. -/
def tryCopy (fs : FS) (src dst : Path) : Option FS :=
  match getFile fs src with
  | none => none
  | some d =>
    let real := targetOf fs src dst
    if parentExists fs real && !(isDir fs real) then
      some (setFile fs real d)
    else
      none

/-- `build_ext_index`: flatten the category table to an extension-to-category
index; empty extensions are skipped, extensions are lowercased, and the first
category to claim an extension wins. -/
def build_ext_index (categories : List (String × List String)) :
    List (String × String) :=
  categories.foldl
    (fun idx c =>
      c.2.foldl
        (fun idx2 e =>
          if e ≠ "" ∧ (idx2.lookup (lower e)).isNone then
            idx2 ++ [(lower e, c.1)]
          else idx2)
        idx)
    []

/-- The candidate name `f"{stem} ({i}){suffix}"` tried by `unique_path`. -/
def candidateName (stem : String) (i : Nat) (suffix : String) : String :=
  stem ++ " (" ++ toString i ++ ")" ++ suffix

/-- The loop body of `unique_path`: try `stem (i)suffix`, `stem (i+1)suffix`,
... and return the first candidate that does not exist.  The loop in the code
terminates because the filesystem is finite; the fuel passed by `unique_path`
is large enough that the fallback (returning the current candidate unchecked)
is never reached for a terminating run. -/
def unique_path_go (fs : FS) (parent : Path) (stem suffix : String) :
    Nat → Nat → Path
  | 0, i => parent ++ [candidateName stem i suffix]
  | fuel + 1, i =>
    let candidate := parent ++ [candidateName stem i suffix]
    if existsPath fs candidate then unique_path_go fs parent stem suffix fuel (i + 1)
    else candidate

/-- `unique_path`: return `path` if it does not exist, else the first
`parent/stem (i)suffix` (i = 1, 2, ...) that does not exist. -/
def unique_path (fs : FS) (path : Path) : Path :=
  if existsPath fs path then
    unique_path_go fs (pathParent path) (pathStem path) (pathSuffix path)
      (fs.files.length + fs.dirs.length + 1) 1
  else path

/-- `resolve_conflict`: decide the final destination (or the skip sentinel
`none`) for a candidate destination under a conflict policy.  The `overwrite`
branch unlinks an existing destination file (directories are left in place);
an unknown policy raises `ValueError` (`Except.error`). -/
def resolve_conflict (destination : Path) (conflict_policy : String) (fs : FS) :
    Except String (Option Path × FS) :=
  if existsPath fs destination = false then
    .ok (some destination, fs)
  else if conflict_policy = "skip" then
    .ok (none, fs)
  else if conflict_policy = "overwrite" then
    .ok (some destination, if isFile fs destination then removeFile fs destination else fs)
  else if conflict_policy = "rename" then
    .ok (some (unique_path fs destination), fs)
  else
    .error ("Unknown conflict policy: " ++ conflict_policy)

/-- `log_undo_operation`: append `ACTION|src|dst` (action upper-cased, paths
resolved — identity here, paths being modelled resolved) to the journal,
creating the journal file when absent. -/
def log_undo_operation (action : String) (src dst : Path) (fs : FS) : FS :=
  { fs with journal := some ((fs.journal.getD []) ++ [⟨upper action, src, dst⟩]) }

/-- `do_transfer`: ensure the destination's parent directory tree exists;
in dry-run, stop there and report success; otherwise move (for `"move"`) or
copy (any other action string) and append an undo record on success.  Any
exception is caught and reported as `false`. -/
def do_transfer (src dst : Path) (action : String) (dry_run : Bool) (fs : FS) :
    Bool × FS :=
  let fs1 := mkdirParents fs (pathParent dst)
  if dry_run then
    (true, fs1)
  else
    match (if action = "move" then tryMove fs1 src dst else tryCopy fs1 src dst) with
    | none => (false, fs1)
    | some fs2 => (true, log_undo_operation action src dst fs2)

/-- A calendar date (`datetime.fromtimestamp`, modelled in UTC). -/
structure Date where
  year : Nat
  month : Nat
  day : Nat
deriving DecidableEq

/-- Civil date from days since the Unix epoch (Gregorian calendar). -/
def civilFromDays (days : Nat) : Date :=
  let z := days + 719468
  let era := z / 146097
  let doe := z % 146097
  let yoe := (doe - doe / 1460 + doe / 36524 - doe / 146096) / 365
  let y := yoe + era * 400
  let doy := doe - (365 * yoe + yoe / 4 - yoe / 100)
  let mp := (5 * doy + 2) / 153
  let d := doy - (153 * mp + 2) / 5 + 1
  let m := if mp < 10 then mp + 3 else mp - 9
  ⟨if m ≤ 2 then y + 1 else y, m, d⟩

/-- `datetime.fromtimestamp` on a modelled mtime (seconds since the epoch). -/
def dateOfMtime (mtime : Nat) : Date := civilFromDays (mtime / 86400)

/-- `date.strftime('%B')`: the full month name. -/
def monthName (m : Nat) : String :=
  (["January", "February", "March", "April", "May", "June", "July",
    "August", "September", "October", "November", "December"]).getD (m - 1) ""

/-- Two-digit zero padding, as in `f"{n:02d}"`. -/
def pad2 (n : Nat) : String :=
  if n < 10 then "0" ++ toString n else toString n

/-- The common type of the `organize_by_*` functions: file, destination root,
extension index, conflict policy, action, dry-run flag, state.  Exceptions
escaping the organizer (there is no catch-all in `process_directory`) are
`Except.error`. -/
abbrev Organizer :=
  Path → Path → List (String × String) → String → String → Bool → FS →
    Except String (Option Bool × FS)

/-- Shared tail of every organizer: resolve the conflict on the candidate
destination, then skip (`none`) or transfer. -/
def resolveAndTransfer (file dest_file : Path) (conflict_policy action : String)
    (dry_run : Bool) (fs : FS) : Except String (Option Bool × FS) :=
  match resolve_conflict dest_file conflict_policy fs with
  | .error e => .error e
  | .ok (none, fs1) => .ok (none, fs1)
  | .ok (some final_dest, fs1) =>
    let r := do_transfer file final_dest action dry_run fs1
    .ok (some r.1, r.2)

/-- `organize_by_type`: destination `<dest>/<category>/<name>` with the
category looked up in the extension index by the lower-cased suffix,
defaulting to `"Others"`. -/
def organize_by_type : Organizer := fun file dest_root ext_index policy action dry fs =>
  let cat := (ext_index.lookup (lower (pathSuffix file))).getD "Others"
  resolveAndTransfer file (dest_root ++ [cat, pathName file]) policy action dry fs

/-- `organize_by_name`: destination `<dest>/<stem>/<name>`. -/
def organize_by_name : Organizer := fun file dest_root _ policy action dry fs =>
  resolveAndTransfer file (dest_root ++ [pathStem file, pathName file]) policy action dry fs

/-- `organize_by_date`: destination `<dest>/<year>/<MM-MonthName>/<name>` from
the file's mtime; the whole body is wrapped in `try/except`, so a missing file
(`stat` failing) or an unknown conflict policy yields outcome `False`. -/
def organize_by_date : Organizer := fun file dest_root _ policy action dry fs =>
  match getFile fs file with
  | none => .ok (some false, fs)
  | some d =>
    let date := dateOfMtime d.mtime
    let dest_dir := dest_root ++ [toString date.year, pad2 date.month ++ "-" ++ monthName date.month]
    match resolveAndTransfer file (dest_dir ++ [pathName file]) policy action dry fs with
    | .error _ => .ok (some false, fs)
    | .ok r => .ok r

/-- `organize_by_day`: destination `<dest>/<year>/<MM>/<DD>/<name>`; wrapped in
`try/except` like `organize_by_date`. -/
def organize_by_day : Organizer := fun file dest_root _ policy action dry fs =>
  match getFile fs file with
  | none => .ok (some false, fs)
  | some d =>
    let date := dateOfMtime d.mtime
    let dest_dir := dest_root ++ [toString date.year, pad2 date.month, pad2 date.day]
    match resolveAndTransfer file (dest_dir ++ [pathName file]) policy action dry fs with
    | .error _ => .ok (some false, fs)
    | .ok r => .ok r

/-- `organize_by_size`: destination bucket by file size (`st_size`; the MiB
comparisons in the code are exact, so they are modelled on byte counts);
wrapped in `try/except`. -/
def organize_by_size : Organizer := fun file dest_root _ policy action dry fs =>
  match getFile fs file with
  | none => .ok (some false, fs)
  | some d =>
    let cat :=
      if d.size < 1048576 then "Small (Under 1MB)"
      else if d.size < 104857600 then "Medium (1-100MB)"
      else "Large (Over 100MB)"
    match resolveAndTransfer file (dest_root ++ [cat, pathName file]) policy action dry fs with
    | .error _ => .ok (some false, fs)
    | .ok r => .ok r

/-- `organize_by_first_letter`: destination by the upper-cased first character
of the stem when alphabetic, else `"#"`; `stem[0]` on an empty stem raises
(not caught here — there is no `try` in this organizer). -/
def organize_by_first_letter : Organizer := fun file dest_root _ policy action dry fs =>
  let s := pathStem file
  if s.isEmpty then .error "string index out of range"
  else
    let first_letter := s.front.toUpper
    let cat := if first_letter.isAlpha then String.singleton first_letter else "#"
    resolveAndTransfer file (dest_root ++ [cat, pathName file]) policy action dry fs

/-- The `ORGANIZERS` dispatch table. -/
def ORGANIZERS : List (String × Organizer) :=
  [("type", organize_by_type),
   ("name", organize_by_name),
   ("date", organize_by_date),
   ("day", organize_by_day),
   ("size", organize_by_size),
   ("first_letter", organize_by_first_letter)]

/-- `clear_undo_log`: delete the journal file if present. -/
def clear_undo_log (fs : FS) : FS :=
  { fs with journal := none }

/-- Accumulator of the `perform_undo` loop.  `skipped` and `trace` are
observation fields: `skipped` counts the lines skipped with the
`UNDO SKIP` warning, and `trace` records the entries in the order the loop
visits them. -/
structure UndoAcc where
  fs : FS
  succeeded : Nat
  failed : Nat
  skipped : Nat
  trace : List UndoEntry
deriving DecidableEq

/-- One iteration of the `perform_undo` loop: if the recorded destination
still exists, move it back to the recorded source (an exception from the move
counts the line as failed); otherwise skip with a warning. -/
def undoStep (acc : UndoAcc) (e : UndoEntry) : UndoAcc :=
  if existsPath acc.fs e.dst then
    match tryMove acc.fs e.dst e.src with
    | some fs' =>
      { acc with fs := fs', succeeded := acc.succeeded + 1, trace := acc.trace ++ [e] }
    | none =>
      { acc with failed := acc.failed + 1, trace := acc.trace ++ [e] }
  else
    { acc with skipped := acc.skipped + 1, trace := acc.trace ++ [e] }

/-- The `for idx, line in enumerate(reversed(lines), ...)` loop of
`perform_undo`. -/
def performUndoAcc (fs : FS) (lines : List UndoEntry) : UndoAcc :=
  lines.reverse.foldl undoStep ⟨fs, 0, 0, 0, []⟩

/-- `perform_undo`: with no journal file, report zero totals; otherwise
process all lines in reverse, clear the journal, and return the aggregate
dict `{"total": ..., "succeeded": ..., "failed": ...}` (modelled as the
association list the dict literal builds). -/
def perform_undo (fs : FS) : List (String × Nat) × FS :=
  match fs.journal with
  | none => ([("total", 0), ("succeeded", 0), ("failed", 0)], fs)
  | some lines =>
    let acc := performUndoAcc fs lines
    ([("total", lines.length), ("succeeded", acc.succeeded), ("failed", acc.failed)],
     clear_undo_log acc.fs)

/-- Run statistics returned by `process_directory`. -/
structure ProcStats where
  total : Nat
  processed : Nat
  succeeded : Nat
  failed : Nat
  skipped : Nat
deriving DecidableEq

/-- The keyword arguments of `process_directory` that the engine reads.  The
file list is passed explicitly (the code's `kwargs.get('files', ...)` path);
the cancellation event is modelled as a predicate on the number of files
already processed, capturing the moment during the run at which the shared
flag becomes set. -/
structure ProcArgs where
  mode : String
  conflict_policy : String
  action : String
  dry_run : Bool
  files : List Path
  dest : Path
  categories : List (String × List String)
  cancel : Nat → Bool

/-- The per-file loop of `process_directory`, carrying the four counters
(processed, succeeded, failed, skipped); an exception escaping the organizer
aborts the whole call. -/
def procLoop (org : Organizer) (a : ProcArgs) (ext_index : List (String × String)) :
    List Path → Nat → Nat → Nat → Nat → FS →
      Except String ((Nat × Nat × Nat × Nat) × FS)
  | [], p, s, f, k, fs => .ok ((p, s, f, k), fs)
  | file :: rest, p, s, f, k, fs =>
    if a.cancel p then .ok ((p, s, f, k), fs)
    else
      match org file a.dest ext_index a.conflict_policy a.action a.dry_run fs with
      | .error e => .error e
      | .ok (none, fs') => procLoop org a ext_index rest (p + 1) s f (k + 1) fs'
      | .ok (some true, fs') => procLoop org a ext_index rest (p + 1) (s + 1) f k fs'
      | .ok (some false, fs') => procLoop org a ext_index rest (p + 1) s (f + 1) k fs'

/-- `process_directory`: look up the organizer for the mode (unknown mode
raises before anything else), build the extension index once for mode
`"type"`, then run the per-file loop and return the statistics. -/
def process_directory (a : ProcArgs) (fs : FS) : Except String (ProcStats × FS) :=
  match ORGANIZERS.lookup a.mode with
  | none => .error ("Unknown organization mode: " ++ a.mode)
  | some org =>
    let ext_index := if a.mode = "type" then build_ext_index a.categories else []
    match procLoop org a ext_index a.files 0 0 0 0 fs with
    | .error e => .error e
    | .ok ((p, s, f, k), fs') =>
      .ok ({ total := a.files.length, processed := p, succeeded := s,
             failed := f, skipped := k }, fs')

/-- The statistics component of a `process_directory` result, when the call
did not raise. -/
def statsOf (r : Except String (ProcStats × FS)) : Option ProcStats :=
  r.toOption.map (·.1)

/-- The final state of a `process_directory` result, when the call did not
raise. -/
def procStateOf (r : Except String (ProcStats × FS)) : Option FS :=
  r.toOption.map (·.2)

/-- The outcome of an organizer result, when it did not raise. -/
def okOutcome (r : Except String (Option Bool × FS)) : Option (Option Bool) :=
  r.toOption.map (·.1)

/-- The file at `p` in the state an organizer left behind, when it did not
raise. -/
def getFileAfter (r : Except String (Option Bool × FS)) (p : Path) :
    Option (Option FileData) :=
  r.toOption.map (fun x => getFile x.2 p)

/-! ### Concrete states used by witnesses and counterexamples -/

/-- A state in which `d/name.txt` already exists. -/
def fsRename : FS := ⟨[(["d", "name.txt"], ⟨0, 0, 0⟩)], [["d"]], none⟩

/-- A journal whose single recorded destination no longer exists. -/
def fsSkipLine : FS := ⟨[], [], some [⟨"MOVE", ["s", "a"], ["d", "a"]⟩]⟩

/-- A source tree with a single `jpg` file. -/
def fsOneJpg : FS := ⟨[(["s", "a.jpg"], ⟨1, 2, 3⟩)], [["s"]], none⟩

/-- A state in which the `jpg` file's destination under `Images` is already
occupied. -/
def fsJpgConflict : FS :=
  ⟨[(["s", "a.jpg"], ⟨1, 2, 3⟩), (["d", "Images", "a.jpg"], ⟨9, 8, 7⟩)],
   [["s"], ["d"], ["d", "Images"]], none⟩

/-- Arguments for a single-file `type`-mode run under the `skip` policy. -/
def argsSkipOne : ProcArgs :=
  ⟨"type", "skip", "move", false, [["s", "a.jpg"]], ["d"],
   [("Images", [".jpg"])], fun _ => false⟩

/-- The empty filesystem. -/
def fsEmpty : FS := ⟨[], [], none⟩

/-- Arguments for a single-file `type`-mode run under the `rename` policy. -/
def argsTypeOne : ProcArgs :=
  ⟨"type", "rename", "move", false, [["s", "a.jpg"]], ["d"],
   [("Images", [".jpg"])], fun _ => false⟩

/-- The state `argsTypeOne` leaves behind when run on `fsOneJpg`. -/
def fsAfterOne : FS :=
  ⟨[(["d", "Images", "a.jpg"], ⟨1, 2, 3⟩)],
   [["s"], ["d"], ["d", "Images"]],
   some [⟨"MOVE", ["s", "a.jpg"], ["d", "Images", "a.jpg"]⟩]⟩

/-- Arguments whose mode is not a key of `ORGANIZERS`. -/
def argsBogusMode : ProcArgs :=
  ⟨"bogus", "rename", "move", false, [], [], [], fun _ => false⟩

/-- Arguments whose conflict policy is not one of the three known policies. -/
def argsBogusPolicy : ProcArgs :=
  ⟨"type", "bogus", "move", false, [["s", "a.jpg"]], ["d"],
   [("Images", [".jpg"])], fun _ => false⟩

/-- A two-file run whose cancellation flag becomes set once one file has been
processed. -/
def argsCancelOne : ProcArgs :=
  ⟨"type", "rename", "move", false, [["s", "a.jpg"], ["s", "b.txt"]], ["d"],
   [("Images", [".jpg"])], fun n => decide (1 ≤ n)⟩

/-- A source tree with two files. -/
def fsTwoFiles : FS :=
  ⟨[(["s", "a.jpg"], ⟨1, 2, 3⟩), (["s", "b.txt"], ⟨4, 5, 6⟩)], [["s"]], none⟩

/-- A journal recording a chain of two moves (`p` to `q`, then `q` to `r`). -/
def undoLines : List UndoEntry :=
  [⟨"MOVE", ["p"], ["q"]⟩, ⟨"MOVE", ["q"], ["r"]⟩]

/-- A state holding that chain journal, with the file now at `r`. -/
def fsChain : FS := ⟨[(["r"], ⟨1, 1, 1⟩)], [], some undoLines⟩

/-! ### Basic lemmas about the filesystem model -/

theorem lookup_filter_key (x q : Path) (l : List (Path × FileData)) :
    List.lookup q (l.filter fun e => !(e.1 == x)) =
      if q = x then none else List.lookup q l := by
  induction l with
  | nil =>
    show List.lookup q [] = if q = x then none else List.lookup q []
    by_cases h : q = x <;> simp [h]
  | cons a t ih =>
    obtain ⟨k, v⟩ := a
    by_cases hkx : k = x
    · have hf : ¬((fun (e : Path × FileData) => !(e.1 == x)) (k, v) = true) := by simp [hkx]
      rw [List.filter_cons_of_neg (p := fun (e : Path × FileData) => !(e.1 == x)) hf, ih]
      by_cases hqx : q = x
      · simp [hqx]
      · have hqk : (q == k) = false := by
          simp only [beq_eq_false_iff_ne]
          exact fun h => hqx (hkx ▸ h)
        simp only [if_neg hqx, List.lookup_cons, hqk]
    · have hf : ((fun (e : Path × FileData) => !(e.1 == x)) (k, v) = true) := by simp [hkx]
      rw [List.filter_cons_of_pos (p := fun (e : Path × FileData) => !(e.1 == x)) hf, List.lookup_cons, List.lookup_cons]
      by_cases hqk : q = k
      · have h1 : (q == k) = true := by simp [hqk]
        have hqx : ¬q = x := fun h => hkx (hqk ▸ h)
        rw [h1, if_neg hqx]
      · have h1 : (q == k) = false := by simp [hqk]
        rw [h1, ih]

theorem getFile_removeFile (fs : FS) (p q : Path) :
    getFile (removeFile fs p) q = if q = p then none else getFile fs q := by
  simp [getFile, removeFile, lookup_filter_key]

theorem getFile_setFile (fs : FS) (p q : Path) (d : FileData) :
    getFile (setFile fs p d) q = if q = p then some d else getFile fs q := by
  by_cases h : q = p
  · have h1 : (q == p) = true := by simp [h]
    simp [getFile, setFile, List.lookup, h1, h]
  · have h1 : (q == p) = false := by simp [h]
    simp [getFile, setFile, List.lookup, h1, h, lookup_filter_key]

theorem getFile_mkdirParents (fs : FS) (p q : Path) :
    getFile (mkdirParents fs p) q = getFile fs q := rfl

theorem getFile_clear_undo_log (fs : FS) (q : Path) :
    getFile (clear_undo_log fs) q = getFile fs q := rfl

theorem getFile_log_undo_operation (action : String) (src dst : Path) (fs : FS) (q : Path) :
    getFile (log_undo_operation action src dst fs) q = getFile fs q := rfl

theorem isDir_mkdirParents (fs : FS) (p q : Path) :
    isDir (mkdirParents fs p) q = (isDir fs q || decide (q ∈ prefixesOf p)) := by
  simp [isDir, mkdirParents, List.mem_append]

theorem mem_prefixesOf_length {q p : Path} (h : q ∈ prefixesOf p) :
    q.length ≤ p.length := by
  induction p generalizing q with
  | nil => simp [prefixesOf] at h
  | cons x xs ih =>
    simp only [prefixesOf, List.mem_cons, List.mem_map] at h
    rcases h with h | ⟨r, hr, rfl⟩
    · simp [h]
    · simpa using Nat.succ_le_succ (ih hr)

theorem not_mem_prefixesOf_parent (p : Path) (hp : p ≠ []) :
    p ∉ prefixesOf (pathParent p) := by
  intro h
  have hlen := mem_prefixesOf_length h
  have : (pathParent p).length < p.length := by
    cases p with
    | nil => exact absurd rfl hp
    | cons x xs =>
      simp only [pathParent, List.length_dropLast, List.length_cons]
      omega
  omega

theorem self_mem_prefixesOf (p : Path) (hp : p ≠ []) : p ∈ prefixesOf p := by
  induction p with
  | nil => exact absurd rfl hp
  | cons x xs ih =>
    rcases eq_or_ne xs [] with h | h
    · subst h; simp [prefixesOf]
    · simp only [prefixesOf, List.mem_cons, List.mem_map]
      exact Or.inr ⟨xs, ih h, rfl⟩

theorem parentExists_mkdirParents_self (fs : FS) (dst : Path) :
    parentExists (mkdirParents fs (pathParent dst)) dst = true := by
  by_cases h : pathParent dst = []
  · simp [parentExists, h]
  · simp [parentExists, h, isDir_mkdirParents, self_mem_prefixesOf _ h]

theorem isDir_mkdirParents_of_isDir (fs : FS) (p q : Path) (h : isDir fs q = true) :
    isDir (mkdirParents fs p) q = true := by
  simp [isDir_mkdirParents, h]

/-- A successful plain move in `do_transfer`: source present, destination not
an existing directory. -/
theorem do_transfer_move_success (fs : FS) (src dst : Path) (d : FileData)
    (hsrc : getFile fs src = some d) (hne : dst ≠ []) (hdir : isDir fs dst = false) :
    do_transfer src dst "move" false fs =
      (true, log_undo_operation "move" src dst
        (setFile (removeFile (mkdirParents fs (pathParent dst)) src) dst d)) := by
  have hdir1 : isDir (mkdirParents fs (pathParent dst)) dst = false := by
    simp [isDir_mkdirParents, hdir, not_mem_prefixesOf_parent dst hne]
  have hsrc1 : getFile (mkdirParents fs (pathParent dst)) src = some d := hsrc
  simp [do_transfer, tryMove, hsrc1, targetOf, hdir1,
    parentExists_mkdirParents_self]

/-! ### C6 — dry-run frame property of `do_transfer` -/

/-- C6: for every source, destination and action, `do_transfer` with
`dry_run = true` creates the destination's parent directory tree, returns
success, and neither moves nor copies any file nor appends any undo
record (the file table and the journal are untouched). -/
theorem c6_dry_run_creates_dirs_only (src dst : Path) (action : String) (fs : FS) :
    do_transfer src dst action true fs = (true, mkdirParents fs (pathParent dst)) ∧
    (mkdirParents fs (pathParent dst)).files = fs.files ∧
    (mkdirParents fs (pathParent dst)).journal = fs.journal ∧
    ((prefixesOf (pathParent dst)).all
      fun q => isDir (mkdirParents fs (pathParent dst)) q) = true := by
  refine ⟨rfl, rfl, rfl, ?_⟩
  simp only [List.all_eq_true]
  intro q hq
  simp [isDir_mkdirParents, hq]

/-! ### C4 — rename conflict resolution, twice in sequence -/

/-- C4 as stated is false: with `d/name.txt` existing and nothing created in
between, the second resolution under `rename` again returns `name (1).txt`,
not `name (2).txt` (the returned state is unchanged, so the second resolution
is the same computation). -/
theorem c4_counterexample :
    resolve_conflict ["d", "name.txt"] "rename" fsRename =
      .ok (some ["d", "name (1).txt"], fsRename) ∧
    resolve_conflict ["d", "name.txt"] "rename" fsRename ≠
      .ok (some ["d", "name (2).txt"], fsRename) := by
  constructor
  · decide
  · decide

/-- C4 (amended): under the `rename` policy, resolving an existing destination
whose first numbered candidate `name (1).ext` does not exist returns
`name (1).ext` and leaves the state unchanged; hence resolving the same
destination twice in sequence, without creating any file in between, yields
`name (1).ext` both times. -/
theorem c4_rename_idempotent (fs : FS) (dest : Path)
    (h1 : existsPath fs dest = true)
    (h2 : existsPath fs
      (pathParent dest ++ [candidateName (pathStem dest) 1 (pathSuffix dest)]) = false) :
    resolve_conflict dest "rename" fs =
      .ok (some (pathParent dest ++ [candidateName (pathStem dest) 1 (pathSuffix dest)]),
        fs) := by
  simp [resolve_conflict, h1, unique_path, unique_path_go, h2]

/-- Witness for `c4_rename_idempotent` at a concrete state. -/
theorem c4_rename_idempotent_witness :
    resolve_conflict ["d", "name.txt"] "rename" fsRename =
      .ok (some (pathParent ["d", "name.txt"] ++
        [candidateName (pathStem ["d", "name.txt"]) 1 (pathSuffix ["d", "name.txt"])]),
        fsRename) :=
  c4_rename_idempotent fsRename ["d", "name.txt"] (by decide) (by decide)

/-! ### C8 — undo lines whose destination is missing -/

/-- C8 as stated is false in its last part: a journal line whose recorded
destination no longer exists is skipped — it is counted in `total` but in
neither `succeeded` nor `failed` — yet the returned aggregate contains no
separate tally of skipped lines (its only keys are `total`, `succeeded`,
`failed`). -/
theorem c8_counterexample :
    (perform_undo fsSkipLine).1 = [("total", 1), ("succeeded", 0), ("failed", 0)] ∧
    (perform_undo fsSkipLine).1.lookup "skipped" = none ∧
    (performUndoAcc fsSkipLine [⟨"MOVE", ["s", "a"], ["d", "a"]⟩]).skipped = 1 := by
  refine ⟨by decide, by decide, by decide⟩

/-! ### C2 — destinations computed by `organize_by_type` -/

/-- A conflict-free non-dry-run move by `organize_by_type` transfers the file
to `dest_root/cat/name` and records the move. -/
theorem organize_by_type_move_clean (idx : List (String × String))
    (file dest_root dst : Path) (policy : String) (fs : FS) (d : FileData)
    (hdst : dst = dest_root ++
      [(idx.lookup (lower (pathSuffix file))).getD "Others", pathName file])
    (hsrc : getFile fs file = some d)
    (hnc : existsPath fs dst = false) :
    organize_by_type file dest_root idx policy "move" false fs =
      .ok (some true, log_undo_operation "move" file dst
        (setFile (removeFile (mkdirParents fs (pathParent dst)) file) dst d)) := by
  have hne : dst ≠ [] := by subst hdst; simp
  have hdir : isDir fs dst = false := by
    simp only [existsPath, Bool.or_eq_false_iff] at hnc
    exact hnc.2
  have hmove := do_transfer_move_success fs file dst d hsrc hne hdir
  rw [organize_by_type, ← hdst]
  simp only [resolveAndTransfer, resolve_conflict, hnc, if_true, reduceIte]
  rw [hmove]

/-- C2: for every file and extension index built from the category table, the
`type` classifier moves a (conflict-free) file to `<dest>/<category>/<name>`
where the category is the index entry for the file's lower-cased extension,
and to `<dest>/Others/<name>` whenever the lower-cased extension has no index
entry. -/
theorem c2_type_destination (categories : List (String × List String))
    (file dest_root : Path) (policy : String) (fs : FS) (d : FileData)
    (hsrc : getFile fs file = some d) :
    (∀ c, (build_ext_index categories).lookup (lower (pathSuffix file)) = some c →
      existsPath fs (dest_root ++ [c, pathName file]) = false →
      okOutcome (organize_by_type file dest_root (build_ext_index categories)
          policy "move" false fs) = some (some true) ∧
      getFileAfter (organize_by_type file dest_root (build_ext_index categories)
          policy "move" false fs) (dest_root ++ [c, pathName file]) = some (some d) ∧
      getFileAfter (organize_by_type file dest_root (build_ext_index categories)
          policy "move" false fs) file = some none) ∧
    ((build_ext_index categories).lookup (lower (pathSuffix file)) = none →
      existsPath fs (dest_root ++ ["Others", pathName file]) = false →
      okOutcome (organize_by_type file dest_root (build_ext_index categories)
          policy "move" false fs) = some (some true) ∧
      getFileAfter (organize_by_type file dest_root (build_ext_index categories)
          policy "move" false fs) (dest_root ++ ["Others", pathName file]) = some (some d) ∧
      getFileAfter (organize_by_type file dest_root (build_ext_index categories)
          policy "move" false fs) file = some none) := by
  constructor
  · intro c hc hnc
    have hgd : ((build_ext_index categories).lookup (lower (pathSuffix file))).getD "Others"
        = c := by rw [hc]; rfl
    have hfile_ne : file ≠ dest_root ++ [c, pathName file] := by
      intro h
      rw [← h] at hnc
      simp [existsPath, isFile, hsrc] at hnc
    have horg := organize_by_type_move_clean (build_ext_index categories) file dest_root
      (dest_root ++ [c, pathName file]) policy fs d (by rw [hgd]) hsrc hnc
    refine ⟨?_, ?_, ?_⟩
    · rw [okOutcome, horg]; rfl
    · rw [getFileAfter, horg]
      simp [Except.toOption, getFile_log_undo_operation, getFile_setFile]
    · rw [getFileAfter, horg]
      simp [Except.toOption, getFile_log_undo_operation, getFile_setFile,
        getFile_removeFile, hfile_ne]
  · intro hc hnc
    have hgd : ((build_ext_index categories).lookup (lower (pathSuffix file))).getD "Others"
        = "Others" := by rw [hc]; rfl
    have hfile_ne : file ≠ dest_root ++ ["Others", pathName file] := by
      intro h
      rw [← h] at hnc
      simp [existsPath, isFile, hsrc] at hnc
    have horg := organize_by_type_move_clean (build_ext_index categories) file dest_root
      (dest_root ++ ["Others", pathName file]) policy fs d (by rw [hgd]) hsrc hnc
    refine ⟨?_, ?_, ?_⟩
    · rw [okOutcome, horg]; rfl
    · rw [getFileAfter, horg]
      simp [Except.toOption, getFile_log_undo_operation, getFile_setFile]
    · rw [getFileAfter, horg]
      simp [Except.toOption, getFile_log_undo_operation, getFile_setFile,
        getFile_removeFile, hfile_ne]

/-- Witness for `c2_type_destination`: a mapped `.jpg` file lands under
`Images`. -/
theorem c2_type_destination_witness :
    okOutcome (organize_by_type ["s", "a.jpg"] ["d"] (build_ext_index [("Images", [".jpg"])])
        "rename" "move" false fsOneJpg) = some (some true) ∧
    getFileAfter (organize_by_type ["s", "a.jpg"] ["d"] (build_ext_index [("Images", [".jpg"])])
        "rename" "move" false fsOneJpg) (["d"] ++ ["Images", pathName ["s", "a.jpg"]])
      = some (some ⟨1, 2, 3⟩) ∧
    getFileAfter (organize_by_type ["s", "a.jpg"] ["d"] (build_ext_index [("Images", [".jpg"])])
        "rename" "move" false fsOneJpg) ["s", "a.jpg"] = some none :=
  (c2_type_destination [("Images", [".jpg"])] ["s", "a.jpg"] ["d"] "rename" fsOneJpg
    ⟨1, 2, 3⟩ (by decide)).1 "Images" (by decide) (by decide)

/-! ### C5 — skip policy leaves both files untouched and reports skipped -/

/-- C5: under the `skip` policy, when the candidate destination of the `type`
classifier already exists, `resolve_conflict` returns the skip sentinel and
the organizer returns the state completely unchanged — in particular the
source file and the existing destination file (content and mtime) are
untouched — and a single-file `process_directory` run records the outcome as
skipped (`skipped = 1`), not failed (`failed = 0`). -/
theorem c5_skip_preserves (file dest_root : Path) (idx : List (String × String))
    (action : String) (dry : Bool) (fs : FS) (a : ProcArgs)
    (hex : existsPath fs (dest_root ++
      [(idx.lookup (lower (pathSuffix file))).getD "Others", pathName file]) = true)
    (ha1 : a.mode = "type") (ha2 : a.conflict_policy = "skip")
    (ha3 : a.files = [file]) (ha4 : a.dest = dest_root)
    (ha5 : build_ext_index a.categories = idx) (ha6 : a.cancel 0 = false) :
    organize_by_type file dest_root idx "skip" action dry fs = .ok (none, fs) ∧
    process_directory a fs = .ok (⟨1, 1, 0, 0, 1⟩, fs) := by
  have horg : ∀ (act : String) (dr : Bool),
      organize_by_type file dest_root idx "skip" act dr fs = .ok (none, fs) := by
    intro act dr
    rw [organize_by_type]
    simp only [resolveAndTransfer, resolve_conflict, hex, Bool.true_eq_false,
      if_false, if_true, reduceIte]
  refine ⟨horg action dry, ?_⟩
  have hlk : ORGANIZERS.lookup a.mode = some organize_by_type := by rw [ha1]; rfl
  rw [process_directory, hlk]
  simp only [ha1, if_true, reduceIte, ha3, ha5]
  rw [procLoop, ha6]
  simp only [Bool.false_eq_true, if_false, reduceIte, ha4, ha2, horg, procLoop]
  rfl

/-- Witness for `c5_skip_preserves` at a concrete conflicting state. -/
theorem c5_skip_preserves_witness :
    organize_by_type ["s", "a.jpg"] ["d"] (build_ext_index [("Images", [".jpg"])])
        "skip" "move" false fsJpgConflict = .ok (none, fsJpgConflict) ∧
    process_directory argsSkipOne fsJpgConflict = .ok (⟨1, 1, 0, 0, 1⟩, fsJpgConflict) :=
  c5_skip_preserves ["s", "a.jpg"] ["d"] (build_ext_index [("Images", [".jpg"])])
    "move" false fsJpgConflict argsSkipOne (by decide) rfl rfl rfl rfl rfl rfl

/-! ### The `perform_undo` loop: trace and counters -/

theorem undoStep_trace (acc : UndoAcc) (e : UndoEntry) :
    (undoStep acc e).trace = acc.trace ++ [e] := by
  rw [undoStep]
  by_cases h : existsPath acc.fs e.dst = true
  · rw [if_pos h]
    cases htm : tryMove acc.fs e.dst e.src <;> rfl
  · rw [if_neg h]

theorem undoStep_counts (acc : UndoAcc) (e : UndoEntry) :
    (undoStep acc e).succeeded + (undoStep acc e).failed + (undoStep acc e).skipped =
      acc.succeeded + acc.failed + acc.skipped + 1 := by
  rw [undoStep]
  by_cases h : existsPath acc.fs e.dst = true
  · rw [if_pos h]
    cases htm : tryMove acc.fs e.dst e.src <;> simp <;> omega
  · rw [if_neg h]
    show acc.succeeded + acc.failed + (acc.skipped + 1) =
      acc.succeeded + acc.failed + acc.skipped + 1
    omega

theorem foldl_undoStep_trace (l : List UndoEntry) (acc : UndoAcc) :
    (l.foldl undoStep acc).trace = acc.trace ++ l := by
  induction l generalizing acc with
  | nil => simp
  | cons e t ih => simp [List.foldl_cons, ih, undoStep_trace]

theorem foldl_undoStep_counts (l : List UndoEntry) (acc : UndoAcc) :
    (l.foldl undoStep acc).succeeded + (l.foldl undoStep acc).failed +
        (l.foldl undoStep acc).skipped =
      acc.succeeded + acc.failed + acc.skipped + l.length := by
  induction l generalizing acc with
  | nil => simp
  | cons e t ih =>
    rw [List.foldl_cons, ih, undoStep_counts]
    simp only [List.length_cons]
    omega

/-! ### C8 (amended) — how skipped undo lines are accounted -/

/-- C8 (amended): during `perform_undo`, a journal line whose recorded
destination no longer exists is skipped: it counts toward `total` but toward
neither `succeeded` nor `failed` (the three always sum with the skip count to
the line count), and the returned aggregate carries no separate skip tally —
its only keys are `total`, `succeeded` and `failed`, so the skip count is
recoverable only as `total - succeeded - failed`. -/
theorem c8_skip_neither_success_nor_failure (fs : FS) (lines : List UndoEntry)
    (h : fs.journal = some lines) :
    (perform_undo fs).1 =
      [("total", lines.length), ("succeeded", (performUndoAcc fs lines).succeeded),
       ("failed", (performUndoAcc fs lines).failed)] ∧
    (performUndoAcc fs lines).succeeded + (performUndoAcc fs lines).failed +
      (performUndoAcc fs lines).skipped = lines.length ∧
    (perform_undo fs).1.lookup "skipped" = none := by
  have h1 : (perform_undo fs).1 =
      [("total", lines.length), ("succeeded", (performUndoAcc fs lines).succeeded),
       ("failed", (performUndoAcc fs lines).failed)] := by
    simp only [perform_undo, h]
  refine ⟨h1, ?_, ?_⟩
  · have hc := foldl_undoStep_counts lines.reverse ⟨fs, 0, 0, 0, []⟩
    rw [performUndoAcc]
    rw [hc]
    simp
  · rw [h1]
    rfl

/-- Witness for `c8_skip_neither_success_nor_failure` on a one-line journal
whose destination is gone. -/
theorem c8_skip_neither_witness :
    (perform_undo fsSkipLine).1 =
      [("total", ([⟨"MOVE", ["s", "a"], ["d", "a"]⟩] : List UndoEntry).length),
       ("succeeded", (performUndoAcc fsSkipLine [⟨"MOVE", ["s", "a"], ["d", "a"]⟩]).succeeded),
       ("failed", (performUndoAcc fsSkipLine [⟨"MOVE", ["s", "a"], ["d", "a"]⟩]).failed)] ∧
    (performUndoAcc fsSkipLine [⟨"MOVE", ["s", "a"], ["d", "a"]⟩]).succeeded +
      (performUndoAcc fsSkipLine [⟨"MOVE", ["s", "a"], ["d", "a"]⟩]).failed +
      (performUndoAcc fsSkipLine [⟨"MOVE", ["s", "a"], ["d", "a"]⟩]).skipped =
      ([⟨"MOVE", ["s", "a"], ["d", "a"]⟩] : List UndoEntry).length ∧
    (perform_undo fsSkipLine).1.lookup "skipped" = none :=
  c8_skip_neither_success_nor_failure fsSkipLine [⟨"MOVE", ["s", "a"], ["d", "a"]⟩] rfl

/-! ### C7 — undo processes the journal in reverse chronological order -/

/-- C7: `perform_undo` is the fold of the undo step over the reversed journal:
the iteration trace is exactly the reversed line list, so the line appended
last is processed first, and in general the line at index `i` of an `n`-line
journal is processed as step `n - 1 - i`. -/
theorem c7_undo_reverse_order (fs : FS) (lines : List UndoEntry)
    (h : fs.journal = some lines) :
    perform_undo fs =
      ([("total", lines.length), ("succeeded", (performUndoAcc fs lines).succeeded),
        ("failed", (performUndoAcc fs lines).failed)],
       clear_undo_log (performUndoAcc fs lines).fs) ∧
    (performUndoAcc fs lines).trace = lines.reverse ∧
    ∀ i, i < lines.length →
      (performUndoAcc fs lines).trace[i]? = lines[lines.length - 1 - i]? := by
  have h2 : (performUndoAcc fs lines).trace = lines.reverse := by
    rw [performUndoAcc, foldl_undoStep_trace]
    rfl
  refine ⟨by simp only [perform_undo, h], h2, ?_⟩
  intro i hi
  rw [h2]
  exact List.getElem?_reverse (by simpa using hi)

/-- Witness for `c7_undo_reverse_order`: in a two-line journal, the line
appended second is processed first. -/
theorem c7_undo_reverse_order_witness :
    (performUndoAcc fsChain undoLines).trace[0]? =
      undoLines[undoLines.length - 1 - 0]? :=
  (c7_undo_reverse_order fsChain undoLines rfl).2.2 0 (by decide)

/-! ### C1 — move followed by undo restores the file -/

/-- `perform_undo` on a single-record journal whose destination is present
moves it back and deletes the journal file. -/
theorem perform_undo_single (g : FS) (src dst : Path) (d : FileData)
    (hj : g.journal = some [⟨"MOVE", src, dst⟩])
    (hgd : getFile g dst = some d)
    (hsd : isDir g src = false)
    (hpe : parentExists g src = true) :
    perform_undo g = ([("total", 1), ("succeeded", 1), ("failed", 0)],
      clear_undo_log (setFile (removeFile g dst) src d)) := by
  have hacc : performUndoAcc g [⟨"MOVE", src, dst⟩] =
      { fs := setFile (removeFile g dst) src d, succeeded := 1, failed := 0,
        skipped := 0, trace := [⟨"MOVE", src, dst⟩] } := by
    have hex : existsPath g dst = true := by simp [existsPath, isFile, hgd]
    have htm : tryMove g dst src = some (setFile (removeFile g dst) src d) := by
      rw [tryMove, hgd]
      simp only [targetOf, hsd, Bool.false_eq_true, if_false, reduceIte]
      simp [hpe, hsd]
    rw [performUndoAcc]
    simp only [List.reverse_cons, List.reverse_nil, List.nil_append,
      List.foldl_cons, List.foldl_nil]
    rw [undoStep]
    rw [if_pos hex, htm]
    simp
  simp only [perform_undo, hj, hacc]
  simp

/-- C1: a successful non-dry-run `move` through `do_transfer`, starting from
an absent journal, records `MOVE|src|dst`; a subsequent `perform_undo` moves
the file from the recorded destination back to its original absolute source
path (same metadata) and deletes the journal file. -/
theorem c1_move_undo_roundtrip (fs : FS) (src dst : Path) (d : FileData)
    (hsrc : getFile fs src = some d)
    (hj : fs.journal = none)
    (hne : dst ≠ [])
    (hdir : isDir fs dst = false)
    (hsdir : isDir fs src = false)
    (hsp : src ∉ prefixesOf (pathParent dst))
    (hpe : parentExists fs src = true) :
    (do_transfer src dst "move" false fs).1 = true ∧
    (do_transfer src dst "move" false fs).2.journal = some [⟨"MOVE", src, dst⟩] ∧
    (perform_undo (do_transfer src dst "move" false fs).2).2.journal = none ∧
    getFile (perform_undo (do_transfer src dst "move" false fs).2).2 src = some d ∧
    (src ≠ dst →
      getFile (perform_undo (do_transfer src dst "move" false fs).2).2 dst = none) := by
  have hmove := do_transfer_move_success fs src dst d hsrc hne hdir
  have hsrc_not_dir : src ∉ fs.dirs := by
    simpa [isDir] using hsdir
  have hj2 : (log_undo_operation "move" src dst
      (setFile (removeFile (mkdirParents fs (pathParent dst)) src) dst d)).journal
      = some [⟨"MOVE", src, dst⟩] := by
    have hju : upper "move" = "MOVE" := rfl
    simp [log_undo_operation, setFile, removeFile, mkdirParents, hj, hju]
  have hgd : getFile (log_undo_operation "move" src dst
      (setFile (removeFile (mkdirParents fs (pathParent dst)) src) dst d)) dst
      = some d := by
    rw [getFile_log_undo_operation, getFile_setFile]
    simp
  have hsd2 : isDir (log_undo_operation "move" src dst
      (setFile (removeFile (mkdirParents fs (pathParent dst)) src) dst d)) src
      = false := by
    show decide (src ∈ fs.dirs ++ prefixesOf (pathParent dst)) = false
    simp [List.mem_append, hsrc_not_dir, hsp]
  have hpe2 : parentExists (log_undo_operation "move" src dst
      (setFile (removeFile (mkdirParents fs (pathParent dst)) src) dst d)) src
      = true := by
    rcases Bool.or_eq_true_iff.mp hpe with h0 | h0
    · simp only [parentExists]
      rw [decide_eq_true_iff] at h0
      simp [h0]
    · simp only [parentExists]
      have : isDir (log_undo_operation "move" src dst
          (setFile (removeFile (mkdirParents fs (pathParent dst)) src) dst d))
          (pathParent src) = true := by
        show decide (pathParent src ∈ fs.dirs ++ prefixesOf (pathParent dst)) = true
        have := of_decide_eq_true h0
        simp [List.mem_append, this]
      simp [this]
  have hpu := perform_undo_single _ src dst d hj2 hgd hsd2 hpe2
  refine ⟨by rw [hmove], by rw [hmove]; exact hj2, ?_, ?_, ?_⟩
  · rw [hmove]
    simp only [hpu]
    rfl
  · rw [hmove]
    simp only [hpu]
    rw [getFile_clear_undo_log, getFile_setFile]
    simp
  · intro hne2
    have hne2' : dst ≠ src := fun h => hne2 h.symm
    rw [hmove]
    simp only [hpu]
    rw [getFile_clear_undo_log, getFile_setFile, getFile_removeFile]
    simp [hne2']

/-- Witness for `c1_move_undo_roundtrip` at a concrete move. -/
theorem c1_move_undo_roundtrip_witness :
    (do_transfer ["s", "a.txt"] ["d", "a.txt"] "move" false
      (⟨[(["s", "a.txt"], ⟨7, 5, 3⟩)], [["s"]], none⟩ : FS)).1 = true ∧
    (do_transfer ["s", "a.txt"] ["d", "a.txt"] "move" false
      (⟨[(["s", "a.txt"], ⟨7, 5, 3⟩)], [["s"]], none⟩ : FS)).2.journal =
      some [⟨"MOVE", ["s", "a.txt"], ["d", "a.txt"]⟩] ∧
    (perform_undo (do_transfer ["s", "a.txt"] ["d", "a.txt"] "move" false
      (⟨[(["s", "a.txt"], ⟨7, 5, 3⟩)], [["s"]], none⟩ : FS)).2).2.journal = none ∧
    getFile (perform_undo (do_transfer ["s", "a.txt"] ["d", "a.txt"] "move" false
      (⟨[(["s", "a.txt"], ⟨7, 5, 3⟩)], [["s"]], none⟩ : FS)).2).2 ["s", "a.txt"] =
      some ⟨7, 5, 3⟩ ∧
    (["s", "a.txt"] ≠ ["d", "a.txt"] →
      getFile (perform_undo (do_transfer ["s", "a.txt"] ["d", "a.txt"] "move" false
        (⟨[(["s", "a.txt"], ⟨7, 5, 3⟩)], [["s"]], none⟩ : FS)).2).2 ["d", "a.txt"] = none) :=
  c1_move_undo_roundtrip ⟨[(["s", "a.txt"], ⟨7, 5, 3⟩)], [["s"]], none⟩
    ["s", "a.txt"] ["d", "a.txt"] ⟨7, 5, 3⟩
    (by decide) rfl (by decide) (by decide) (by decide) (by decide) (by decide)

/-! ### C10 — the counters of `process_directory` -/

/-- Counter invariant of the per-file loop: processed grows in lock-step with
the sum of the three outcome counters, and by at most one per enumerated
file. -/
theorem procLoop_counts (org : Organizer) (a : ProcArgs) (idx : List (String × String)) :
    ∀ (files : List Path) (p s f k : Nat) (fs : FS) (p' s' f' k' : Nat) (fs' : FS),
      procLoop org a idx files p s f k fs = .ok ((p', s', f', k'), fs') →
      p' + s + f + k = p + s' + f' + k' ∧ p' ≤ p + files.length := by
  intro files
  induction files with
  | nil =>
    intro p s f k fs p' s' f' k' fs' h
    rw [procLoop] at h
    simp only [Except.ok.injEq, Prod.mk.injEq] at h
    obtain ⟨⟨hp, hs, hf, hk⟩, _⟩ := h
    subst hp; subst hs; subst hf; subst hk
    simp
  | cons file rest ih =>
    intro p s f k fs p' s' f' k' fs' h
    rw [procLoop] at h
    by_cases hc : a.cancel p = true
    · rw [if_pos hc] at h
      simp only [Except.ok.injEq, Prod.mk.injEq] at h
      obtain ⟨⟨hp, hs, hf, hk⟩, _⟩ := h
      subst hp; subst hs; subst hf; subst hk
      simp
    · rw [if_neg hc] at h
      cases horg : org file a.dest idx a.conflict_policy a.action a.dry_run fs with
      | error e =>
        rw [horg] at h
        exact Except.noConfusion h
      | ok r =>
        obtain ⟨ob, fs1⟩ := r
        rw [horg] at h
        match ob with
        | none =>
          replace h : procLoop org a idx rest (p + 1) s f (k + 1) fs1 =
              .ok ((p', s', f', k'), fs') := h
          have := ih (p + 1) s f (k + 1) fs1 p' s' f' k' fs' h
          simp only [List.length_cons]
          omega
        | some true =>
          replace h : procLoop org a idx rest (p + 1) (s + 1) f k fs1 =
              .ok ((p', s', f', k'), fs') := h
          have := ih (p + 1) (s + 1) f k fs1 p' s' f' k' fs' h
          simp only [List.length_cons]
          omega
        | some false =>
          replace h : procLoop org a idx rest (p + 1) s (f + 1) k fs1 =
              .ok ((p', s', f', k'), fs') := h
          have := ih (p + 1) s (f + 1) k fs1 p' s' f' k' fs' h
          simp only [List.length_cons]
          omega

/-- C10: whenever `process_directory` returns normally, the statistics satisfy
`processed = succeeded + failed + skipped` and `processed ≤ total`: every
processed file lands in exactly one of the three outcome counters. -/
theorem c10_stats_invariant (a : ProcArgs) (fs : FS) (st : ProcStats) (fs' : FS)
    (h : process_directory a fs = .ok (st, fs')) :
    st.processed = st.succeeded + st.failed + st.skipped ∧
    st.processed ≤ st.total := by
  rw [process_directory] at h
  cases hlk : ORGANIZERS.lookup a.mode with
  | none =>
    rw [hlk] at h
    exact Except.noConfusion h
  | some org =>
    rw [hlk] at h
    dsimp only [] at h
    cases hpl : procLoop org a (if a.mode = "type" then build_ext_index a.categories else [])
        a.files 0 0 0 0 fs with
    | error e =>
      rw [hpl] at h
      exact Except.noConfusion h
    | ok out =>
      obtain ⟨⟨p, s, f, k⟩, fs2⟩ := out
      rw [hpl] at h
      simp only [Except.ok.injEq, Prod.mk.injEq] at h
      obtain ⟨hst, _⟩ := h
      obtain ⟨hcnt, hle⟩ := procLoop_counts org a _ a.files 0 0 0 0 fs p s f k fs2 hpl
      subst hst
      refine ⟨?_, ?_⟩
      · show p = s + f + k
        omega
      · show p ≤ a.files.length
        omega

/-- Witness for `c10_stats_invariant` on a one-file run. -/
theorem c10_stats_invariant_witness :
    (⟨1, 1, 1, 0, 0⟩ : ProcStats).processed =
      (⟨1, 1, 1, 0, 0⟩ : ProcStats).succeeded + (⟨1, 1, 1, 0, 0⟩ : ProcStats).failed +
        (⟨1, 1, 1, 0, 0⟩ : ProcStats).skipped ∧
    (⟨1, 1, 1, 0, 0⟩ : ProcStats).processed ≤ (⟨1, 1, 1, 0, 0⟩ : ProcStats).total :=
  c10_stats_invariant argsTypeOne fsOneJpg ⟨1, 1, 1, 0, 0⟩ fsAfterOne (by decide)

/-! ### C3 — which configuration errors are fatal, and when -/

/-- C3 as stated is false: with an unknown conflict policy (not `skip`,
`overwrite` or `rename`) but no conflicting destination, `process_directory`
raises no error at all — the run completes with the file moved — because
`resolve_conflict` consults the policy only when the destination already
exists, inside the per-file loop. -/
theorem c3_counterexample :
    argsBogusPolicy.conflict_policy ≠ "skip" ∧
    argsBogusPolicy.conflict_policy ≠ "overwrite" ∧
    argsBogusPolicy.conflict_policy ≠ "rename" ∧
    statsOf (process_directory argsBogusPolicy fsOneJpg) = some ⟨1, 1, 1, 0, 0⟩ := by
  refine ⟨by decide, by decide, by decide, by decide⟩

/-- A known conflict policy never raises in `resolve_conflict`. -/
theorem resolve_conflict_known_ok (dst : Path) (policy : String) (fs : FS)
    (hp : policy = "skip" ∨ policy = "overwrite" ∨ policy = "rename") :
    ∃ r, resolve_conflict dst policy fs = .ok r := by
  rw [resolve_conflict]
  by_cases h0 : existsPath fs dst = false
  · exact ⟨(some dst, fs), by rw [if_pos h0]⟩
  · rcases hp with h | h | h <;> subst h
    · refine ⟨(none, fs), ?_⟩
      rw [if_neg h0]
      rfl
    · refine ⟨(some dst, if isFile fs dst then removeFile fs dst else fs), ?_⟩
      rw [if_neg h0]
      rfl
    · refine ⟨(some (unique_path fs dst), fs), ?_⟩
      rw [if_neg h0]
      rfl

/-- With a known conflict policy, `organize_by_type` never raises. -/
theorem organize_by_type_no_error (file dest_root : Path) (idx : List (String × String))
    (policy action : String) (dry : Bool) (fs : FS)
    (hp : policy = "skip" ∨ policy = "overwrite" ∨ policy = "rename") :
    (organize_by_type file dest_root idx policy action dry fs).isOk = true := by
  rw [organize_by_type, resolveAndTransfer]
  obtain ⟨r, hr⟩ := resolve_conflict_known_ok
    (dest_root ++ [(idx.lookup (lower (pathSuffix file))).getD "Others", pathName file])
    policy fs hp
  rw [hr]
  obtain ⟨o, fs1⟩ := r
  cases o <;> rfl

/-- With a known conflict policy, the `type`-mode per-file loop never
raises. -/
theorem procLoop_type_no_error (a : ProcArgs) (idx : List (String × String))
    (hp : a.conflict_policy = "skip" ∨ a.conflict_policy = "overwrite" ∨
      a.conflict_policy = "rename") :
    ∀ (files : List Path) (p s f k : Nat) (fs : FS),
      (procLoop organize_by_type a idx files p s f k fs).isOk = true := by
  intro files
  induction files with
  | nil =>
    intro p s f k fs
    rfl
  | cons file rest ih =>
    intro p s f k fs
    rw [procLoop]
    by_cases hc : a.cancel p = true
    · rw [if_pos hc]
      rfl
    · rw [if_neg hc]
      cases horg : organize_by_type file a.dest idx a.conflict_policy a.action a.dry_run fs with
      | error e =>
        have := organize_by_type_no_error file a.dest idx a.conflict_policy a.action
          a.dry_run fs hp
        rw [horg] at this
        exact Bool.noConfusion this
      | ok r =>
        obtain ⟨ob, fs1⟩ := r
        match ob with
        | none => exact ih (p + 1) s f (k + 1) fs1
        | some true => exact ih (p + 1) (s + 1) f k fs1
        | some false => exact ih (p + 1) s (f + 1) k fs1

/-- C3 (amended): an unknown mode raises a fatal error before the per-file
loop starts; an unknown conflict policy does *not* — it raises only from
inside the loop, at the first file whose candidate destination already
exists (`c3_counterexample` shows a full run succeeding under a bogus
policy).  With mode `type` and a known policy, nothing but cancellation stops
the batch: the call always returns normally, every per-file failure being
absorbed into the counters. -/
theorem c3_fatal_configuration (a : ProcArgs) (fs : FS) :
    (ORGANIZERS.lookup a.mode = none →
      process_directory a fs = .error ("Unknown organization mode: " ++ a.mode)) ∧
    (a.mode = "type" →
      (a.conflict_policy = "skip" ∨ a.conflict_policy = "overwrite" ∨
        a.conflict_policy = "rename") →
      (process_directory a fs).isOk = true) := by
  constructor
  · intro h
    rw [process_directory, h]
  · intro hm hp
    have hlk : ORGANIZERS.lookup a.mode = some organize_by_type := by rw [hm]; rfl
    rw [process_directory, hlk]
    dsimp only []
    cases hpl : procLoop organize_by_type a
        (if a.mode = "type" then build_ext_index a.categories else [])
        a.files 0 0 0 0 fs with
    | error e =>
      have := procLoop_type_no_error a
        (if a.mode = "type" then build_ext_index a.categories else []) hp
        a.files 0 0 0 0 fs
      rw [hpl] at this
      exact Bool.noConfusion this
    | ok out =>
      obtain ⟨⟨p, s, f, k⟩, fs2⟩ := out
      rfl

/-- Witness for `c3_fatal_configuration`: an unknown mode is fatal before the
loop, and a `type`-mode run with a known policy returns normally. -/
theorem c3_fatal_configuration_witness :
    process_directory argsBogusMode fsEmpty =
      .error ("Unknown organization mode: " ++ argsBogusMode.mode) ∧
    (process_directory argsTypeOne fsOneJpg).isOk = true :=
  ⟨(c3_fatal_configuration argsBogusMode fsEmpty).1 rfl,
   (c3_fatal_configuration argsTypeOne fsOneJpg).2 rfl (Or.inr (Or.inr rfl))⟩

/-! ### C9 — cancellation: frame lemmas -/

theorem isPrefixOf_append_right (l m : Path) : List.isPrefixOf l (l ++ m) = true := by
  induction l with
  | nil => simp
  | cons x xs ih => simp [List.isPrefixOf_cons₂, ih]

theorem ne_of_not_prefix {l q : Path} (m : Path)
    (h : List.isPrefixOf l q = false) : q ≠ l ++ m := by
  intro he
  rw [he, isPrefixOf_append_right] at h
  exact Bool.noConfusion h

theorem unique_path_go_shape (fs : FS) (parent : Path) (st sf : String) :
    ∀ (F i : Nat), ∃ c : String, unique_path_go fs parent st sf F i = parent ++ [c] := by
  intro F
  induction F with
  | zero => intro i; exact ⟨candidateName st i sf, rfl⟩
  | succ F ih =>
    intro i
    rw [unique_path_go]
    by_cases h : existsPath fs (parent ++ [candidateName st i sf]) = true
    · rw [if_pos h]
      exact ih (i + 1)
    · rw [if_neg h]
      exact ⟨candidateName st i sf, rfl⟩

theorem unique_path_append_shape (fs : FS) (base : Path) (cat nm : String) :
    ∃ m : List String, unique_path fs (base ++ [cat, nm]) = base ++ m := by
  rw [unique_path]
  by_cases h : existsPath fs (base ++ [cat, nm]) = true
  · rw [if_pos h]
    have hpp : pathParent (base ++ [cat, nm]) = base ++ [cat] := by
      show (base ++ [cat, nm]).dropLast = base ++ [cat]
      have he : base ++ [cat, nm] = (base ++ [cat]) ++ [nm] := by simp
      rw [he, List.dropLast_concat]
    rw [hpp]
    obtain ⟨c, hc⟩ := unique_path_go_shape fs (base ++ [cat])
      (pathStem (base ++ [cat, nm])) (pathSuffix (base ++ [cat, nm]))
      (fs.files.length + fs.dirs.length + 1) 1
    exact ⟨[cat, c], by rw [hc]; simp⟩
  · rw [if_neg h]
    exact ⟨[cat, nm], rfl⟩

/-- `do_transfer` changes no file entry other than the source and the (real)
destination. -/
theorem do_transfer_frame (src dst : Path) (action : String) (dry : Bool) (fs : FS)
    (q : Path) (hq1 : q ≠ src) (hq2 : q ≠ dst) (hq3 : q ≠ dst ++ [pathName src]) :
    getFile (do_transfer src dst action dry fs).2 q = getFile fs q := by
  have hqreal : q ≠ targetOf (mkdirParents fs (pathParent dst)) src dst := by
    rw [targetOf]
    by_cases hd : isDir (mkdirParents fs (pathParent dst)) dst = true
    · rw [if_pos hd]; exact hq3
    · rw [if_neg hd]; exact hq2
  rw [do_transfer]
  cases dry with
  | true => rfl
  | false =>
    have hmove : ∀ g : FS,
        (if action = "move" then tryMove (mkdirParents fs (pathParent dst)) src dst
          else tryCopy (mkdirParents fs (pathParent dst)) src dst) = some g →
        getFile g q = getFile fs q := by
      intro g hg
      by_cases ha : action = "move"
      · rw [if_pos ha, tryMove] at hg
        cases hgf : getFile (mkdirParents fs (pathParent dst)) src with
        | none => rw [hgf] at hg; exact Option.noConfusion hg
        | some d =>
          rw [hgf] at hg
          dsimp only [] at hg
          by_cases hok : (parentExists (mkdirParents fs (pathParent dst))
              (targetOf (mkdirParents fs (pathParent dst)) src dst) &&
              !(isDir (mkdirParents fs (pathParent dst))
                (targetOf (mkdirParents fs (pathParent dst)) src dst))) = true
          · rw [if_pos hok] at hg
            injection hg with hg2
            rw [← hg2, getFile_setFile, getFile_removeFile]
            simp [hqreal, hq1]
            rfl
          · rw [if_neg hok] at hg
            exact Option.noConfusion hg
      · rw [if_neg ha, tryCopy] at hg
        cases hgf : getFile (mkdirParents fs (pathParent dst)) src with
        | none => rw [hgf] at hg; exact Option.noConfusion hg
        | some d =>
          rw [hgf] at hg
          dsimp only [] at hg
          by_cases hok : (parentExists (mkdirParents fs (pathParent dst))
              (targetOf (mkdirParents fs (pathParent dst)) src dst) &&
              !(isDir (mkdirParents fs (pathParent dst))
                (targetOf (mkdirParents fs (pathParent dst)) src dst))) = true
          · rw [if_pos hok] at hg
            injection hg with hg2
            rw [← hg2, getFile_setFile]
            simp [hqreal]
            rfl
          · rw [if_neg hok] at hg
            exact Option.noConfusion hg
    cases htm : (if action = "move" then tryMove (mkdirParents fs (pathParent dst)) src dst
        else tryCopy (mkdirParents fs (pathParent dst)) src dst) with
    | none => rfl
    | some g =>
      show getFile (log_undo_operation action src dst g) q = getFile fs q
      rw [getFile_log_undo_operation]
      exact hmove g htm

/-- The `.ok` results of `resolve_conflict`: the state is unchanged or has
the destination unlinked, and the final path is the skip sentinel, the
destination itself, or its renamed variant. -/
theorem resolve_conflict_ok_cases (dst : Path) (policy : String) (fs : FS)
    (op : Option Path) (fs1 : FS)
    (h : resolve_conflict dst policy fs = .ok (op, fs1)) :
    (fs1 = fs ∨ fs1 = removeFile fs dst) ∧
    (op = none ∨ op = some dst ∨ op = some (unique_path fs dst)) := by
  rw [resolve_conflict] at h
  by_cases h0 : existsPath fs dst = false
  · rw [if_pos h0] at h
    simp only [Except.ok.injEq, Prod.mk.injEq] at h
    exact ⟨Or.inl h.2.symm, Or.inr (Or.inl h.1.symm)⟩
  · rw [if_neg h0] at h
    by_cases h1 : policy = "skip"
    · rw [if_pos h1] at h
      simp only [Except.ok.injEq, Prod.mk.injEq] at h
      exact ⟨Or.inl h.2.symm, Or.inl h.1.symm⟩
    · rw [if_neg h1] at h
      by_cases h2 : policy = "overwrite"
      · rw [if_pos h2] at h
        simp only [Except.ok.injEq, Prod.mk.injEq] at h
        refine ⟨?_, Or.inr (Or.inl h.1.symm)⟩
        by_cases h3 : isFile fs dst = true
        · rw [if_pos h3] at h
          exact Or.inr h.2.symm
        · rw [if_neg h3] at h
          exact Or.inl h.2.symm
      · rw [if_neg h2] at h
        by_cases h4 : policy = "rename"
        · rw [if_pos h4] at h
          simp only [Except.ok.injEq, Prod.mk.injEq] at h
          exact ⟨Or.inl h.2.symm, Or.inr (Or.inr h.1.symm)⟩
        · rw [if_neg h4] at h
          exact Except.noConfusion h

/-- `organize_by_type` changes no file entry other than the processed file
itself and paths below the destination root. -/
theorem organize_by_type_frame (file dest_root : Path) (idx : List (String × String))
    (policy action : String) (dry : Bool) (fs : FS) (r : Option Bool × FS) (q : Path)
    (horg : organize_by_type file dest_root idx policy action dry fs = .ok r)
    (hq1 : q ≠ file)
    (hq2 : List.isPrefixOf dest_root q = false) :
    getFile r.2 q = getFile fs q := by
  rw [organize_by_type, resolveAndTransfer] at horg
  cases hrc : resolve_conflict
      (dest_root ++ [(idx.lookup (lower (pathSuffix file))).getD "Others", pathName file])
      policy fs with
  | error e => rw [hrc] at horg; exact Except.noConfusion horg
  | ok rr =>
    obtain ⟨op, fs1⟩ := rr
    rw [hrc] at horg
    obtain ⟨hfs1, hop⟩ := resolve_conflict_ok_cases _ policy fs op fs1 hrc
    have hq_dst : q ≠ dest_root ++
        [(idx.lookup (lower (pathSuffix file))).getD "Others", pathName file] :=
      ne_of_not_prefix _ hq2
    have hfs1q : getFile fs1 q = getFile fs q := by
      rcases hfs1 with h | h
      · rw [h]
      · rw [h, getFile_removeFile, if_neg hq_dst]
    rcases hop with h | h | h
    · subst h
      replace horg : Except.ok (Option.none, fs1) = Except.ok r := horg
      injection horg with horg2
      rw [← horg2]
      exact hfs1q
    · subst h
      replace horg : Except.ok (some (do_transfer file
          (dest_root ++ [(idx.lookup (lower (pathSuffix file))).getD "Others", pathName file])
          action dry fs1).1,
          (do_transfer file
          (dest_root ++ [(idx.lookup (lower (pathSuffix file))).getD "Others", pathName file])
          action dry fs1).2) = Except.ok r := horg
      injection horg with horg2
      rw [← horg2]
      have := do_transfer_frame file
        (dest_root ++ [(idx.lookup (lower (pathSuffix file))).getD "Others", pathName file])
        action dry fs1 q hq1 hq_dst
        (by
          have : (dest_root ++ [(idx.lookup (lower (pathSuffix file))).getD "Others",
              pathName file]) ++ [pathName file] = dest_root ++
              ([(idx.lookup (lower (pathSuffix file))).getD "Others", pathName file] ++
                [pathName file]) := by simp
          rw [this]
          exact ne_of_not_prefix _ hq2)
      rw [this]
      exact hfs1q
    · subst h
      obtain ⟨m, hm⟩ := unique_path_append_shape fs dest_root
        ((idx.lookup (lower (pathSuffix file))).getD "Others") (pathName file)
      replace horg : Except.ok (some (do_transfer file
          (unique_path fs (dest_root ++
            [(idx.lookup (lower (pathSuffix file))).getD "Others", pathName file]))
          action dry fs1).1,
          (do_transfer file
          (unique_path fs (dest_root ++
            [(idx.lookup (lower (pathSuffix file))).getD "Others", pathName file]))
          action dry fs1).2) = Except.ok r := horg
      injection horg with horg2
      rw [← horg2]
      have hfr := do_transfer_frame file
        (unique_path fs (dest_root ++
          [(idx.lookup (lower (pathSuffix file))).getD "Others", pathName file]))
        action dry fs1 q hq1
        (by rw [hm]; exact ne_of_not_prefix _ hq2)
        (by
          rw [hm]
          have : (dest_root ++ m) ++ [pathName file] = dest_root ++ (m ++ [pathName file]) := by
            simp
          rw [this]
          exact ne_of_not_prefix _ hq2)
      rw [hfr]
      exact hfs1q

/-- The per-file loop under a cancellation flag that becomes set once `N`
files have been processed: it stops with `processed = N` and all files after
the first `N` untouched. -/
theorem procLoop_cancel_frame (a : ProcArgs) (idx : List (String × String)) (N : Nat)
    (hcan : ∀ n, a.cancel n = decide (N ≤ n))
    (hp : a.conflict_policy = "skip" ∨ a.conflict_policy = "overwrite" ∨
      a.conflict_policy = "rename") :
    ∀ (files : List Path) (p s f k : Nat) (fs : FS),
      p ≤ N → N ≤ p + files.length → files.Nodup →
      (∀ q ∈ files, List.isPrefixOf a.dest q = false) →
      ∃ (s' f' k' : Nat) (fs' : FS),
        procLoop organize_by_type a idx files p s f k fs = .ok ((N, s', f', k'), fs') ∧
        ∀ q ∈ files.drop (N - p), getFile fs' q = getFile fs q := by
  intro files
  induction files with
  | nil =>
    intro p s f k fs hpN hNp _ _
    have hN : p = N := Nat.le_antisymm hpN (by simpa using hNp)
    subst hN
    exact ⟨s, f, k, fs, by rw [procLoop], fun q _ => rfl⟩
  | cons file rest ih =>
    intro p s f k fs hpN hNp hnd hpre
    rcases Nat.eq_or_lt_of_le hpN with heq | hlt
    · subst heq
      have hc : a.cancel p = true := by rw [hcan]; simp
      exact ⟨s, f, k, fs, by rw [procLoop, if_pos hc], fun q _ => rfl⟩
    · have hc : a.cancel p = false := by
        rw [hcan]
        simp only [decide_eq_false_iff_not]
        omega
      have hnoerr := organize_by_type_no_error file a.dest idx a.conflict_policy
        a.action a.dry_run fs hp
      cases horg : organize_by_type file a.dest idx a.conflict_policy a.action
          a.dry_run fs with
      | error e =>
        rw [horg] at hnoerr
        exact Bool.noConfusion hnoerr
      | ok rr =>
        obtain ⟨ob, fs1⟩ := rr
        have hfr : ∀ q, q ≠ file → List.isPrefixOf a.dest q = false →
            getFile fs1 q = getFile fs q := fun q h1 h2 =>
          organize_by_type_frame file a.dest idx a.conflict_policy a.action
            a.dry_run fs (ob, fs1) q horg h1 h2
        have hrest_pre : ∀ q ∈ rest, List.isPrefixOf a.dest q = false :=
          fun q hq => hpre q (List.mem_cons_of_mem _ hq)
        have hfile_nin : file ∉ rest := (List.nodup_cons.mp hnd).1
        have hrest_nd : rest.Nodup := (List.nodup_cons.mp hnd).2
        have hb1 : p + 1 ≤ N := hlt
        have hb2 : N ≤ (p + 1) + rest.length := by
          simp only [List.length_cons] at hNp
          omega
        have hdq : (file :: rest).drop (N - p) = rest.drop (N - (p + 1)) := by
          have hx : N - p = (N - (p + 1)) + 1 := by omega
          rw [hx, List.drop_succ_cons]
        match ob with
        | none =>
          obtain ⟨s', f', k', fs', hpl, hun⟩ :=
            ih (p + 1) s f (k + 1) fs1 hb1 hb2 hrest_nd hrest_pre
          refine ⟨s', f', k', fs', ?_, ?_⟩
          · rw [procLoop, hc, horg]
            exact hpl
          · intro q hq
            rw [hdq] at hq
            have hq_rest : q ∈ rest := List.mem_of_mem_drop hq
            rw [hun q hq]
            exact hfr q (fun he => hfile_nin (he ▸ hq_rest)) (hrest_pre q hq_rest)
        | some true =>
          obtain ⟨s', f', k', fs', hpl, hun⟩ :=
            ih (p + 1) (s + 1) f k fs1 hb1 hb2 hrest_nd hrest_pre
          refine ⟨s', f', k', fs', ?_, ?_⟩
          · rw [procLoop, hc, horg]
            exact hpl
          · intro q hq
            rw [hdq] at hq
            have hq_rest : q ∈ rest := List.mem_of_mem_drop hq
            rw [hun q hq]
            exact hfr q (fun he => hfile_nin (he ▸ hq_rest)) (hrest_pre q hq_rest)
        | some false =>
          obtain ⟨s', f', k', fs', hpl, hun⟩ :=
            ih (p + 1) s (f + 1) k fs1 hb1 hb2 hrest_nd hrest_pre
          refine ⟨s', f', k', fs', ?_, ?_⟩
          · rw [procLoop, hc, horg]
            exact hpl
          · intro q hq
            rw [hdq] at hq
            have hq_rest : q ∈ rest := List.mem_of_mem_drop hq
            rw [hun q hq]
            exact hfr q (fun he => hfile_nin (he ▸ hq_rest)) (hrest_pre q hq_rest)

/-- C9: if the cancellation flag becomes set once `N` of the `M` enumerated
files have been processed (modelled as a flag that is a function of the
processed count), a `type`-mode run with a known policy processes no further
file: the statistics report `processed = N` (with `total = M`), and the
remaining `M - N` files are left untouched in the source. -/
theorem c9_cancellation_stops (a : ProcArgs) (fs : FS) (N : Nat)
    (hcan : ∀ n, a.cancel n = decide (N ≤ n))
    (hm : a.mode = "type")
    (hp : a.conflict_policy = "skip" ∨ a.conflict_policy = "overwrite" ∨
      a.conflict_policy = "rename")
    (hN : N ≤ a.files.length)
    (hnd : a.files.Nodup)
    (hdest : ∀ q ∈ a.files, List.isPrefixOf a.dest q = false) :
    (statsOf (process_directory a fs)).map (·.processed) = some N ∧
    (statsOf (process_directory a fs)).map (·.total) = some a.files.length ∧
    ∀ q ∈ a.files.drop N,
      (procStateOf (process_directory a fs)).map (fun g => getFile g q) =
        some (getFile fs q) := by
  obtain ⟨s', f', k', fs', hpl, hun⟩ := procLoop_cancel_frame a
    (if a.mode = "type" then build_ext_index a.categories else []) N hcan hp
    a.files 0 0 0 0 fs (Nat.zero_le N) (by simpa using hN) hnd hdest
  have hlk : ORGANIZERS.lookup a.mode = some organize_by_type := by rw [hm]; rfl
  have hpd : process_directory a fs = .ok
      ({ total := a.files.length, processed := N, succeeded := s', failed := f',
         skipped := k' }, fs') := by
    rw [process_directory, hlk]
    dsimp only []
    rw [hpl]
  refine ⟨by rw [hpd]; rfl, by rw [hpd]; rfl, ?_⟩
  intro q hq
  rw [hpd]
  show some (getFile fs' q) = some (getFile fs q)
  rw [hun q hq]

/-- Witness for `c9_cancellation_stops`: of two files, only the first is
processed and the second is untouched. -/
theorem c9_cancellation_stops_witness :
    (statsOf (process_directory argsCancelOne fsTwoFiles)).map (·.processed) = some 1 ∧
    (procStateOf (process_directory argsCancelOne fsTwoFiles)).map
        (fun g => getFile g ["s", "b.txt"]) = some (getFile fsTwoFiles ["s", "b.txt"]) :=
  ⟨(c9_cancellation_stops argsCancelOne fsTwoFiles 1 (fun n => rfl) rfl
      (Or.inr (Or.inr rfl)) (by decide) (by decide) (by decide)).1,
   (c9_cancellation_stops argsCancelOne fsTwoFiles 1 (fun n => rfl) rfl
      (Or.inr (Or.inr rfl)) (by decide) (by decide) (by decide)).2.2
     ["s", "b.txt"] (by decide)⟩

end FileOrganizer
